import Mathlib

/-!
A shallow embedding of the NEO-Explorer entity layer (`src/models.py`):
the `NearEarthObject` and `CloseApproach` classes, their constructors,
the linking pass driven by `CloseApproach.assign_neo`, and
`CloseApproach.serialize`.

Python floats are modelled by `PFloat`: a not-a-number sentinel, the two
infinities, and exact fractions for finite values (no arithmetic is ever
performed on them in this layer, only parsing, storage and comparison, so
exact fractions are a faithful carrier).  Python's `float(...)` builtin
applied to a string is modelled by `pyFloatParse`; failure (`none`)
corresponds to Python raising `ValueError`.

The date helpers `cd_to_datetime` and `datetime_to_str` live in
`helpers.py`, which is not part of the sources under scrutiny; both are
modelled from the spec (minute-precision `YYYY-MM-DD HH:MM` strings).
-/

/-- Python float values as stored in the entity layer: the
not-a-number sentinel, the infinities, and exact finite values carried
as an (unreduced) integer numerator over a natural denominator. -/
inductive PFloat where
  | nan : PFloat
  | inf : PFloat
  | ninf : PFloat
  | num : ℤ → ℕ → PFloat
deriving DecidableEq

/-- Python `==` on floats: `nan` compares unequal to everything, itself
included; finite values compare by the value of the fraction. -/
def pfloatEqB : PFloat → PFloat → Bool
  | PFloat.nan, _ => false
  | _, PFloat.nan => false
  | PFloat.inf, PFloat.inf => true
  | PFloat.ninf, PFloat.ninf => true
  | PFloat.num a b, PFloat.num c d => a * (d : ℤ) == c * (b : ℤ)
  | _, _ => false

/-- Whitespace stripped by Python's `float(...)` builtin. -/
def isPySpace (c : Char) : Bool :=
  c = ' ' ∨ c = '\t' ∨ c = '\n' ∨ c = '\r'

/-- Strip leading and trailing whitespace. -/
def stripSpaces (l : List Char) : List Char :=
  ((l.dropWhile isPySpace).reverse.dropWhile isPySpace).reverse

/-- Read an optional sign; `true` means negative. -/
def parseSign : List Char → Bool × List Char
  | '-' :: cs => (true, cs)
  | '+' :: cs => (false, cs)
  | cs => (false, cs)

/-- Take a maximal run of decimal digits off the front, as digit values. -/
def grabDigits : List Char → List Nat × List Char
  | [] => ([], [])
  | c :: cs =>
    if c.isDigit then
      let r := grabDigits cs
      ((c.toNat - 48) :: r.1, r.2)
    else ([], c :: cs)

/-- The number denoted by a big-endian list of digit values. -/
def natOfDigits (l : List Nat) : Nat :=
  l.foldl (fun a d => 10 * a + d) 0

/-- Shift a fraction `mN / mD` by a power-of-ten exponent, staying in
natural-number arithmetic. -/
def applyExp (mN mD : ℕ) : ℤ → ℕ × ℕ
  | Int.ofNat k => (mN * 10 ^ k, mD)
  | Int.negSucc k => (mN, mD * 10 ^ (k + 1))

/-- Read an optional exponent part `e`/`E`, sign, digits. -/
def parseExp : List Char → Option (ℤ × List Char)
  | [] => some (0, [])
  | c :: r =>
    if c = 'e' ∨ c = 'E' then
      let sgn := parseSign r
      let dr := grabDigits sgn.2
      if dr.1.isEmpty then none
      else some ((if sgn.1 then -(natOfDigits dr.1 : ℤ) else (natOfDigits dr.1 : ℤ)), dr.2)
    else some (0, c :: r)

/-- Python's `float(s)` on a string: optional surrounding whitespace and
sign, then `nan`, `inf`/`infinity` (case-insensitive) or a decimal literal
with optional fraction and exponent.  `none` models `ValueError`. -/
def pyFloatParse (s : String) : Option PFloat :=
  let cs := stripSpaces s.toList
  let sgn := parseSign cs
  let neg := sgn.1
  let body := sgn.2
  let low := body.map Char.toLower
  if low = ['n', 'a', 'n'] then some PFloat.nan
  else if low = ['i', 'n', 'f'] ∨ low = ['i', 'n', 'f', 'i', 'n', 'i', 't', 'y'] then
    some (if neg then PFloat.ninf else PFloat.inf)
  else
    let ipr := grabDigits body
    let fpr : List Nat × List Char :=
      match ipr.2 with
      | '.' :: r => grabDigits r
      | r => ([], r)
    if ipr.1.isEmpty ∧ fpr.1.isEmpty then none
    else
      match parseExp fpr.2 with
      | none => none
      | some (e, rest) =>
        if rest.isEmpty then
          let mN := natOfDigits ipr.1 * 10 ^ fpr.1.length + natOfDigits fpr.1
          let p := applyExp mN (10 ^ fpr.1.length) e
          some (PFloat.num (if neg then -(p.1 : ℤ) else (p.1 : ℤ)) p.2)
        else none

/-- A minute-precision UTC timestamp, the payload of the `time` attribute
of a `CloseApproach`. -/
structure PyDatetime where
  year : Nat
  month : Nat
  day : Nat
  hour : Nat
  minute : Nat
deriving DecidableEq

/-- The value of a decimal digit character, `none` otherwise. -/
def digitVal? (c : Char) : Option Nat :=
  if c.isDigit then some (c.toNat - 48) else none

/-- Two digit characters as a two-digit number. -/
def parse2 (a b : Char) : Option Nat :=
  match digitVal? a, digitVal? b with
  | some x, some y => some (10 * x + y)
  | _, _ => none

/-- Four digit characters as a four-digit number. -/
def parse4 (a b c d : Char) : Option Nat :=
  match parse2 a b, parse2 c d with
  | some hi, some lo => some (100 * hi + lo)
  | _, _ => none

/-- Modelled from the spec: `helpers.cd_to_datetime` is not among the
sources; per the spec it parses a fixed-format minute-precision
`YYYY-MM-DD HH:MM` date-time string into a timestamp, failing on
malformed input. -/
def cd_to_datetime (s : String) : Option PyDatetime :=
  match s.toList with
  | [y1, y2, y3, y4, c1, m1, m2, c2, d1, d2, c3, h1, h2, c4, n1, n2] =>
    if c1 = '-' ∧ c2 = '-' ∧ c3 = ' ' ∧ c4 = ':' then
      match parse4 y1 y2 y3 y4, parse2 m1 m2, parse2 d1 d2, parse2 h1 h2, parse2 n1 n2 with
      | some y, some mo, some dd, some hh, some mi =>
        if 1 ≤ mo ∧ mo ≤ 12 ∧ 1 ≤ dd ∧ dd ≤ 31 ∧ hh < 24 ∧ mi < 60 then
          some ⟨y, mo, dd, hh, mi⟩
        else none
      | _, _, _, _, _ => none
    else none
  | _ => none

/-- The character of a digit value. -/
def digitChar48 (n : Nat) : Char := Char.ofNat (48 + n)

/-- A number zero-padded to two digit characters. -/
def pad2 (n : Nat) : List Char := [digitChar48 (n / 10 % 10), digitChar48 (n % 10)]

/-- A number zero-padded to four digit characters. -/
def pad4 (n : Nat) : List Char := pad2 (n / 100) ++ pad2 (n % 100)

/-- Modelled from the spec: `helpers.datetime_to_str` is not among the
sources; per the spec it renders a timestamp back to the exact
`YYYY-MM-DD HH:MM` format, no seconds and no timezone suffix. -/
def datetime_to_str (t : PyDatetime) : String :=
  String.mk (pad4 t.year ++ '-' ::
    (pad2 t.month ++ '-' :: (pad2 t.day ++ ' ' :: (pad2 t.hour ++ ':' :: pad2 t.minute))))

theorem digitVal?_some {c : Char} {x : Nat} (h : digitVal? c = some x) :
    digitChar48 x = c ∧ x < 10 := by
  unfold digitVal? at h
  split at h
  · next hd =>
    injection h with h
    subst h
    have hb : 48 ≤ c.toNat ∧ c.toNat ≤ 57 := by
      simpa [Char.isDigit, Char.toNat] using hd
    refine ⟨?_, by omega⟩
    unfold digitChar48
    have h48 : 48 + (c.toNat - 48) = c.toNat := by omega
    rw [h48, Char.ofNat_toNat]
  · exact absurd h (by simp)

theorem parse2_some {a b : Char} {n : Nat} (h : parse2 a b = some n) :
    pad2 n = [a, b] ∧ n < 100 := by
  unfold parse2 at h
  cases ha : digitVal? a with
  | none => rw [ha] at h; exact absurd h (by simp)
  | some x =>
    cases hb : digitVal? b with
    | none => rw [ha, hb] at h; exact absurd h (by simp)
    | some y =>
      rw [ha, hb] at h
      injection h with h
      obtain ⟨hca, hxa⟩ := digitVal?_some ha
      obtain ⟨hcb, hxb⟩ := digitVal?_some hb
      subst h
      constructor
      · unfold pad2
        have e1 : (10 * x + y) / 10 % 10 = x := by omega
        have e2 : (10 * x + y) % 10 = y := by omega
        rw [e1, e2, hca, hcb]
      · omega

theorem parse4_some {a b c d : Char} {n : Nat} (h : parse4 a b c d = some n) :
    pad4 n = [a, b, c, d] ∧ n < 10000 := by
  unfold parse4 at h
  cases hab : parse2 a b with
  | none => rw [hab] at h; exact absurd h (by simp)
  | some hi =>
    cases hcd : parse2 c d with
    | none => rw [hab, hcd] at h; exact absurd h (by simp)
    | some lo =>
      rw [hab, hcd] at h
      injection h with h
      obtain ⟨hpab, hhi⟩ := parse2_some hab
      obtain ⟨hpcd, hlo⟩ := parse2_some hcd
      subst h
      constructor
      · unfold pad4
        have e1 : (100 * hi + lo) / 100 = hi := by omega
        have e2 : (100 * hi + lo) % 100 = lo := by omega
        rw [e1, e2, hpab, hpcd]
        rfl
      · omega

/-- Formatting is a strict inverse of parsing on the strings the parser
accepts. -/
theorem cd_to_datetime_roundtrip {s : String} {t : PyDatetime}
    (h : cd_to_datetime s = some t) : datetime_to_str t = s := by
  obtain ⟨l⟩ := s
  unfold cd_to_datetime at h
  split at h
  · next y1 y2 y3 y4 c1 m1 m2 c2 d1 d2 c3 h1 h2 c4 n1 n2 hl =>
    split at h
    · next hsep =>
      obtain ⟨hc1, hc2, hc3, hc4⟩ := hsep
      cases hy : parse4 y1 y2 y3 y4 with
      | none => rw [hy] at h; exact absurd h (by simp)
      | some y =>
        cases hmo : parse2 m1 m2 with
        | none => rw [hy, hmo] at h; exact absurd h (by simp)
        | some mo =>
          cases hdd : parse2 d1 d2 with
          | none => rw [hy, hmo, hdd] at h; exact absurd h (by simp)
          | some dd =>
            cases hhh : parse2 h1 h2 with
            | none => rw [hy, hmo, hdd, hhh] at h; exact absurd h (by simp)
            | some hh =>
              cases hmi : parse2 n1 n2 with
              | none => rw [hy, hmo, hdd, hhh, hmi] at h; exact absurd h (by simp)
              | some mi =>
                simp only [hy, hmo, hdd, hhh, hmi] at h
                split at h
                · injection h with h
                  subst h
                  unfold datetime_to_str
                  simp only
                  rw [(parse4_some hy).1, (parse2_some hmo).1, (parse2_some hdd).1,
                    (parse2_some hhh).1, (parse2_some hmi).1]
                  have : String.toList ⟨l⟩ = l := rfl
                  rw [this] at hl
                  rw [hl, hc1, hc2, hc3, hc4]
                  rfl
                · exact absurd h (by simp)
    · exact absurd h (by simp)
  · exact absurd h (by simp)

/-- The `NearEarthObject` entity.  `approaches` holds the indices (into
the event list being linked) of the close approaches appended by the
linking pass; Python stores object references, which the embedding
renders as positions in the input event list. -/
structure NearEarthObject where
  designation : String
  name : Option String
  diameter : PFloat
  hazardous : Bool
  approaches : List Nat
deriving DecidableEq

/-- A value reaching the `str(...)` coercion on the `name` parameter:
either an actual string or Python's `None` (which coerces to the
four-character string `"None"`). -/
inductive PyStrInput where
  | pstr : String → PyStrInput
  | pynone : PyStrInput
deriving DecidableEq

/-- Python `str(...)` on such a value. -/
def pyStrCoerce : PyStrInput → String
  | PyStrInput.pstr s => s
  | PyStrInput.pynone => "None"

/-- `NearEarthObject.__init__`: coerce the designation and name, default
an empty (falsy) name to `None`, default an empty diameter string to
`'nan'` before `float(...)` conversion (a failed conversion raises
`ValueError`), and normalize the `'N'` hazard sentinel to the empty
string before the `bool(...)` test.  `approaches` starts empty. -/
def nearEarthObjectInit (pdes : String) (name : PyStrInput) (diameter : String)
    (pha : String) : Except String NearEarthObject :=
  match pyFloatParse (if diameter = "" then "nan" else diameter) with
  | none => Except.error "ValueError: could not convert string to float"
  | some d =>
    Except.ok
      { designation := pdes,
        name := if pyStrCoerce name = "" then none else some (pyStrCoerce name),
        diameter := d,
        hazardous := decide ((if pha = "N" then "" else pha) ≠ ""),
        approaches := [] }

/-- `NearEarthObject.fullname`: the designation, with the name in
parentheses when present (the Python code tests the name for
truthiness, so an empty-string name would also be skipped). -/
def NearEarthObject.fullname (n : NearEarthObject) : String :=
  match n.name with
  | some nm => if nm = "" then n.designation else n.designation ++ " (" ++ nm ++ ")"
  | none => n.designation

/-- The `CloseApproach` entity.  `neo` is `none` until the linking pass
resolves it to the index of the owning body. -/
structure CloseApproach where
  _designation : String
  time : PyDatetime
  distance : PFloat
  velocity : PFloat
  neo : Option Nat
deriving DecidableEq

/-- `CloseApproach.__init__`: keep the raw designation, parse the
date-time string (raising on malformed input), convert distance and
velocity with `float(...)`, and start unlinked. -/
def closeApproachInit (des cd dist v_rel : String) : Except String CloseApproach :=
  match cd_to_datetime cd with
  | none => Except.error "ValueError: time data does not match format"
  | some t =>
    match pyFloatParse dist with
    | none => Except.error "ValueError: could not convert string to float"
    | some dv =>
      match pyFloatParse v_rel with
      | none => Except.error "ValueError: could not convert string to float"
      | some vv =>
        Except.ok { _designation := des, time := t, distance := dv,
                    velocity := vv, neo := none }

/-- `CloseApproach.time_str`: the stored timestamp rendered back to the
minute-precision display format. -/
def CloseApproach.time_str (ca : CloseApproach) : String :=
  datetime_to_str ca.time

/-- Lookup in the designation-keyed dict of bodies, as the index of the
first body carrying the designation (the unique one when designations
are distinct, which is how the dict is keyed). -/
def findNeoIdx : List NearEarthObject → String → Option Nat
  | [], _ => none
  | n :: rest, des =>
    if n.designation = des then some 0 else (findNeoIdx rest des).map (· + 1)

/-- Replace the element at an index, when it exists. -/
def modifyIdx : List α → Nat → (α → α) → List α
  | [], _, _ => []
  | a :: l, 0, f => f a :: l
  | a :: l, n + 1, f => a :: modifyIdx l n f

/-- `CloseApproach.assign_neo`: look the event's designation up in the
designation-keyed dict of bodies; on a hit set `neo` to the body and
append the event (here: its input position `j`) to that body's
`approaches`; on a miss set `neo` to `None` without raising. -/
def assign_neo (neos : List NearEarthObject) (ca : CloseApproach) (j : Nat) :
    List NearEarthObject × CloseApproach :=
  match findNeoIdx neos ca._designation with
  | some i =>
    (modifyIdx neos i (fun n => { n with approaches := n.approaches ++ [j] }),
     { ca with neo := some i })
  | none => (neos, { ca with neo := none })

/-- The linking pass from event position `j0` on: one `assign_neo` call
per event, in input order. -/
def linkFrom (neos : List NearEarthObject) (j0 : Nat) :
    List CloseApproach → List NearEarthObject × List CloseApproach
  | [] => (neos, [])
  | e :: es =>
    let st := assign_neo neos e j0
    let rest := linkFrom st.1 (j0 + 1) es
    (rest.1, st.2 :: rest.2)

/-- The full linking pass over a body collection and an event
collection. -/
def link (neos : List NearEarthObject) (events : List CloseApproach) :
    List NearEarthObject × List CloseApproach :=
  linkFrom neos 0 events

/-- The event positions (counted from `j0`) whose designation resolves to
body `i`, in input order. -/
def hits (neos : List NearEarthObject) (i j0 : Nat) :
    List CloseApproach → List Nat
  | [] => []
  | e :: es =>
    (if findNeoIdx neos e._designation = some i then [j0] else []) ++
      hits neos i (j0 + 1) es

/-- An atomic Python value appearing in a serialization output. -/
inductive PyAtom where
  | astr : String → PyAtom
  | afloat : PFloat → PyAtom
  | abool : Bool → PyAtom
deriving DecidableEq

/-- A value of a serialization output dict: an atom, or (for the `json`
shape's `neo` entry) a nested dict of atoms. -/
inductive PyVal where
  | atom : PyAtom → PyVal
  | vdict : List (String × PyAtom) → PyVal
deriving DecidableEq

/-- A deterministic rendering of a `PFloat` as text.  Python prints the
shortest round-tripping decimal of the binary double; the model keeps
exact rationals, so finite values render as exact fractions.  The entity
layer never inspects the rendered text. -/
def pyStrOfPFloat : PFloat → String
  | PFloat.nan => "nan"
  | PFloat.inf => "inf"
  | PFloat.ninf => "-inf"
  | PFloat.num n d => toString n ++ "/" ++ toString d

/-- Python `str(...)` on a bool. -/
def pyStrOfBool : Bool → String
  | true => "True"
  | false => "False"

/-- Python `str(...)` on an attribute value. -/
def pyStrOfAtom : PyAtom → String
  | PyAtom.astr s => s
  | PyAtom.afloat x => pyStrOfPFloat x
  | PyAtom.abool b => pyStrOfBool b

/-- The fixed field-name tuple of `CloseApproach.serialize`. -/
def fieldnames : List String :=
  ["datetime_utc", "distance_au", "velocity_km_s", "designation",
   "name", "diameter_km", "potentially_hazardous"]

/-- `CloseApproach.serialize`: build the seven-attribute tuple from the
event and its linked NEO (name `None` replaced by the empty string),
then either the flat `csv` dict (every attribute passed through
`str(...)`) or the nested `json` dict (first three attributes at top
level, remaining four under `neo`); any other extension raises
`ValueError`.  An unlinked event raises an attribute-access error when
`self.neo.name` is dereferenced. -/
def serialize (ca : CloseApproach) (neos : List NearEarthObject)
    (extension : String) : Except String (List (String × PyVal)) :=
  match ca.neo.bind (fun i => neos[i]?) with
  | none => Except.error "AttributeError"
  | some neo =>
    let nameS := match neo.name with | none => "" | some s => s
    let attributes : List PyAtom :=
      [PyAtom.astr ca.time_str, PyAtom.afloat ca.distance,
       PyAtom.afloat ca.velocity, PyAtom.astr neo.designation,
       PyAtom.astr nameS, PyAtom.afloat neo.diameter,
       PyAtom.abool neo.hazardous]
    if extension = "csv" then
      Except.ok (List.zip fieldnames
        (attributes.map (fun a => PyVal.atom (PyAtom.astr (pyStrOfAtom a)))))
    else if extension = "json" then
      Except.ok (List.zip (fieldnames.take 3) ((attributes.take 3).map PyVal.atom) ++
        [("neo", PyVal.vdict (List.zip (fieldnames.drop 3) (attributes.drop 3)))])
    else
      Except.error "ValueError: extension must be csv or json"

/-- One `serialize` call with the post-call state of the receiver and of
the body collection made explicit: the method only reads attributes and
builds fresh dicts, so the state passes through unchanged. -/
def serializeRun (ca : CloseApproach) (neos : List NearEarthObject)
    (extension : String) :
    Except String (List (String × PyVal)) × CloseApproach × List NearEarthObject :=
  (serialize ca neos extension, ca, neos)

theorem modifyIdx_getElem? (l : List α) (n : Nat) (f : α → α) (i : Nat) :
    (modifyIdx l n f)[i]? = if i = n then (l[i]?).map f else l[i]? := by
  induction l generalizing n i with
  | nil => simp [modifyIdx]
  | cons a l ih =>
    cases n with
    | zero =>
      cases i with
      | zero => simp [modifyIdx]
      | succ i => simp [modifyIdx]
    | succ n =>
      cases i with
      | zero => simp [modifyIdx]
      | succ i =>
        simp only [modifyIdx, List.getElem?_cons_succ, ih]
        by_cases h : i = n <;> simp [h]

theorem findNeoIdx_modifyApp (neos : List NearEarthObject) (k j : Nat) (des : String) :
    findNeoIdx (modifyIdx neos k
      (fun n => { n with approaches := n.approaches ++ [j] })) des =
      findNeoIdx neos des := by
  induction neos generalizing k with
  | nil => simp [modifyIdx]
  | cons a l ih =>
    cases k with
    | zero => simp [modifyIdx, findNeoIdx]
    | succ k => simp [modifyIdx, findNeoIdx, ih]

theorem findNeoIdx_some {neos : List NearEarthObject} {des : String} {i : Nat}
    (h : findNeoIdx neos des = some i) :
    ∃ n, neos[i]? = some n ∧ n.designation = des := by
  induction neos generalizing i with
  | nil => simp [findNeoIdx] at h
  | cons a l ih =>
    unfold findNeoIdx at h
    split at h
    · next hdes =>
      injection h with h
      subst h
      exact ⟨a, by simp, hdes⟩
    · cases hr : findNeoIdx l des with
      | none => rw [hr] at h; exact absurd h (by simp)
      | some i0 =>
        rw [hr] at h
        injection h with h
        subst h
        obtain ⟨n, hn, hnd⟩ := ih hr
        exact ⟨n, by simpa using hn, hnd⟩

theorem findNeoIdx_unique {neos : List NearEarthObject} {des : String} {i : Nat}
    {n : NearEarthObject}
    (hdist : (neos.map NearEarthObject.designation).Nodup)
    (h : neos[i]? = some n) (hdes : n.designation = des) :
    findNeoIdx neos des = some i := by
  induction neos generalizing i with
  | nil => simp at h
  | cons a l ih =>
    simp only [List.map_cons, List.nodup_cons] at hdist
    obtain ⟨hna, hnl⟩ := hdist
    cases i with
    | zero =>
      rw [List.getElem?_cons_zero] at h
      injection h with h
      subst h
      simp [findNeoIdx, hdes]
    | succ i =>
      rw [List.getElem?_cons_succ] at h
      have hne : ¬ a.designation = des := by
        intro heq
        apply hna
        have hmem : n ∈ l := List.getElem?_mem h
        rw [heq, ← hdes]
        exact List.mem_map_of_mem NearEarthObject.designation hmem
      simp [findNeoIdx, hne, ih hnl h]

theorem hits_modifyApp (neos : List NearEarthObject) (k j i : Nat)
    (es : List CloseApproach) (j0 : Nat) :
    hits (modifyIdx neos k (fun n => { n with approaches := n.approaches ++ [j] }))
      i j0 es = hits neos i j0 es := by
  induction es generalizing j0 with
  | nil => rfl
  | cons e es ih => simp [hits, findNeoIdx_modifyApp, ih]

theorem linkFrom_fst_getElem? (es : List CloseApproach)
    (neos : List NearEarthObject) (j0 i : Nat) :
    ((linkFrom neos j0 es).1)[i]? =
      (neos[i]?).map (fun n => { n with approaches := n.approaches ++ hits neos i j0 es }) := by
  induction es generalizing neos j0 with
  | nil =>
    cases hn : neos[i]? <;> simp [linkFrom, hits, hn]
  | cons e es ih =>
    simp only [linkFrom, assign_neo]
    cases hf : findNeoIdx neos e._designation with
    | none =>
      simp only [hits, hf]
      have : ¬ (none : Option Nat) = some i := by simp
      rw [ih]
      simp [this]
    | some k =>
      simp only [hits, hf]
      rw [ih, modifyIdx_getElem?, hits_modifyApp]
      by_cases hik : i = k
      · subst hik
        cases hn : neos[i]? <;> simp [List.append_assoc]
      · have : ¬ (some k = some i) := by
          intro hc; injection hc with hc; exact hik hc.symm
        cases hn : neos[i]? <;> simp [hik, this]

theorem linkFrom_snd (es : List CloseApproach) (neos : List NearEarthObject)
    (j0 : Nat) :
    (linkFrom neos j0 es).2 =
      es.map (fun e => { e with neo := findNeoIdx neos e._designation }) := by
  induction es generalizing neos j0 with
  | nil => rfl
  | cons e es ih =>
    simp only [linkFrom, assign_neo, List.map_cons]
    cases hf : findNeoIdx neos e._designation with
    | none => simp [hf, ih]
    | some k =>
      simp only [hf]
      rw [ih]
      congr 1
      apply List.map_congr_left
      intro x _
      rw [findNeoIdx_modifyApp]

theorem mem_hits {neos : List NearEarthObject} {i j0 j : Nat}
    {es : List CloseApproach} :
    j ∈ hits neos i j0 es ↔
      ∃ e, es[j - j0]? = some e ∧ j0 ≤ j ∧
        findNeoIdx neos e._designation = some i := by
  induction es generalizing j0 with
  | nil => simp [hits]
  | cons e es ih =>
    simp only [hits, List.mem_append]
    constructor
    · rintro (hmem | hmem)
      · by_cases hc : findNeoIdx neos e._designation = some i
        · simp only [if_pos hc, List.mem_singleton] at hmem
          subst hmem
          exact ⟨e, by simp, Nat.le_refl _, hc⟩
        · simp [if_neg hc] at hmem
      · obtain ⟨e2, he2, hle, hf⟩ := ih.mp hmem
        refine ⟨e2, ?_, by omega, hf⟩
        have hk : j - j0 = (j - (j0 + 1)) + 1 := by omega
        rw [hk, List.getElem?_cons_succ]
        exact he2
    · rintro ⟨e2, he2, hle, hf⟩
      by_cases hj : j = j0
      · subst hj
        rw [Nat.sub_self, List.getElem?_cons_zero] at he2
        injection he2 with he2
        subst he2
        left
        simp [hf]
      · have hk : j - j0 = (j - (j0 + 1)) + 1 := by omega
        rw [hk, List.getElem?_cons_succ] at he2
        right
        exact ih.mpr ⟨e2, he2, by omega, hf⟩

theorem hits_sorted (neos : List NearEarthObject) (i j0 : Nat)
    (es : List CloseApproach) : (hits neos i j0 es).Pairwise (· < ·) := by
  induction es generalizing j0 with
  | nil => simp [hits]
  | cons e es ih =>
    simp only [hits]
    by_cases hc : findNeoIdx neos e._designation = some i
    · simp only [if_pos hc, List.singleton_append, List.pairwise_cons]
      refine ⟨?_, ih (j0 + 1)⟩
      intro b hb
      obtain ⟨_, _, hle, _⟩ := mem_hits.mp hb
      omega
    · simp only [if_neg hc, List.nil_append]
      exact ih (j0 + 1)

theorem hits_nodup (neos : List NearEarthObject) (i j0 : Nat)
    (es : List CloseApproach) : (hits neos i j0 es).Nodup :=
  (hits_sorted neos i j0 es).imp (fun hlt => Nat.ne_of_lt hlt)

theorem link_fst_getElem? (neos : List NearEarthObject)
    (events : List CloseApproach) (i : Nat) :
    ((link neos events).1)[i]? =
      (neos[i]?).map
        (fun n => { n with approaches := n.approaches ++ hits neos i 0 events }) :=
  linkFrom_fst_getElem? events neos 0 i

/-- C2: after one linking pass that calls `assign_neo` exactly once per
event, in input order, against the designation-keyed body map (bodies
with distinct designations and initially empty `approaches`): the pass is
total (never raises) and returns each event with `neo` set to the lookup
result; an event whose designation matches the body at index `i` ends
with `neo` pointing at exactly that body and is counted exactly once in
that body's `approaches`, which holds exactly the matching event
positions in original input order; an event with no matching designation
ends with `neo` none and appears in no body's `approaches`; no event is
held by two bodies. -/
theorem link_assign_neo_spec (neos : List NearEarthObject)
    (events : List CloseApproach)
    (hdist : (neos.map NearEarthObject.designation).Nodup)
    (hinit : ∀ n ∈ neos, n.approaches = []) :
    ((link neos events).2 =
      events.map (fun e => { e with neo := findNeoIdx neos e._designation })) ∧
    (∀ (j i : Nat) (e : CloseApproach) (n : NearEarthObject),
      events[j]? = some e → neos[i]? = some n →
      n.designation = e._designation →
      ((link neos events).2)[j]? = some { e with neo := some i } ∧
      ∃ n2, ((link neos events).1)[i]? = some n2 ∧
        n2.approaches = hits neos i 0 events ∧
        n2.approaches.count j = 1 ∧
        n2.designation = n.designation) ∧
    (∀ (j : Nat) (e : CloseApproach), events[j]? = some e →
      findNeoIdx neos e._designation = none →
      ((link neos events).2)[j]? = some { e with neo := none } ∧
      ∀ (i : Nat) (n2 : NearEarthObject),
        ((link neos events).1)[i]? = some n2 → j ∉ n2.approaches) ∧
    (∀ (j i1 i2 : Nat) (n1 n2 : NearEarthObject),
      ((link neos events).1)[i1]? = some n1 →
      ((link neos events).1)[i2]? = some n2 →
      j ∈ n1.approaches → j ∈ n2.approaches → i1 = i2) := by
  have hsnd : (link neos events).2 =
      events.map (fun e => { e with neo := findNeoIdx neos e._designation }) :=
    linkFrom_snd events neos 0
  have happ : ∀ (i : Nat) (n2 : NearEarthObject),
      ((link neos events).1)[i]? = some n2 →
      ∃ n, neos[i]? = some n ∧
        n2 = { n with approaches := hits neos i 0 events } := by
    intro i n2 h
    rw [link_fst_getElem?] at h
    cases hn : neos[i]? with
    | none => rw [hn] at h; exact absurd h (by simp)
    | some n =>
      rw [hn] at h
      injection h with h
      refine ⟨n, rfl, ?_⟩
      rw [← h]
      show { n with approaches := n.approaches ++ hits neos i 0 events } =
        { n with approaches := hits neos i 0 events }
      rw [hinit n (List.getElem?_mem hn), List.nil_append]
  refine ⟨hsnd, ?_, ?_, ?_⟩
  · intro j i e n hje hin hdes
    have hf : findNeoIdx neos e._designation = some i :=
      findNeoIdx_unique hdist hin hdes
    constructor
    · rw [hsnd, List.getElem?_map, hje, Option.map_some', hf]
    · have hmem : j ∈ hits neos i 0 events := by
        refine mem_hits.mpr ⟨e, ?_, Nat.zero_le j, hf⟩
        rw [Nat.sub_zero]
        exact hje
      refine ⟨{ n with approaches := hits neos i 0 events }, ?_, rfl, ?_, rfl⟩
      · rw [link_fst_getElem?, hin, Option.map_some',
          hinit n (List.getElem?_mem hin), List.nil_append]
      · exact List.count_eq_one_of_mem (hits_nodup neos i 0 events) hmem
  · intro j e hje hf
    constructor
    · rw [hsnd, List.getElem?_map, hje, Option.map_some', hf]
    · intro i n2 hl hj
      obtain ⟨n, hn, hn2⟩ := happ i n2 hl
      rw [hn2] at hj
      obtain ⟨e2, he2, _, hf2⟩ := mem_hits.mp hj
      rw [Nat.sub_zero, hje] at he2
      injection he2 with he2
      subst he2
      rw [hf] at hf2
      exact absurd hf2 (by simp)
  · intro j i1 i2 n1 n2 h1 h2 hm1 hm2
    obtain ⟨b1, hb1, he1⟩ := happ i1 n1 h1
    obtain ⟨b2, hb2, he2⟩ := happ i2 n2 h2
    rw [he1] at hm1
    rw [he2] at hm2
    obtain ⟨e1, hg1, _, hf1⟩ := mem_hits.mp hm1
    obtain ⟨e2, hg2, _, hf2⟩ := mem_hits.mp hm2
    rw [Nat.sub_zero] at hg1 hg2
    rw [hg1] at hg2
    injection hg2 with hg2
    subst hg2
    rw [hf1] at hf2
    injection hf2

/-- C1: constructing a `CloseApproach` from a minute-precision date-time
string the parser accepts and reading its `time_str` accessor reproduces
the string exactly (no seconds, no timezone suffix): display formatting
is a strict inverse of the parse step at minute granularity. -/
theorem closeApproach_time_str_roundtrip {des cd dist v_rel : String}
    {ca : CloseApproach}
    (h : closeApproachInit des cd dist v_rel = Except.ok ca) :
    ca.time_str = cd := by
  unfold closeApproachInit at h
  cases ht : cd_to_datetime cd with
  | none => rw [ht] at h; exact absurd h (by simp)
  | some t =>
    rw [ht] at h
    cases hd : pyFloatParse dist with
    | none => rw [hd] at h; exact absurd h (by simp)
    | some dv =>
      rw [hd] at h
      cases hv : pyFloatParse v_rel with
      | none => rw [hv] at h; exact absurd h (by simp)
      | some vv =>
        rw [hv] at h
        injection h with h
        subst h
        show datetime_to_str t = cd
        exact cd_to_datetime_roundtrip ht

/-- Witness for C1 at a concrete construction. -/
theorem closeApproach_time_str_roundtrip_witness :
    (CloseApproach.mk "433" ⟨1900, 12, 27, 1, 30⟩ (PFloat.num 3 10)
      (PFloat.num 57 10) none).time_str = "1900-12-27 01:30" := by
  have h : closeApproachInit "433" "1900-12-27 01:30" "0.3" "5.7" =
      Except.ok (CloseApproach.mk "433" ⟨1900, 12, 27, 1, 30⟩
        (PFloat.num 3 10) (PFloat.num 57 10) none) := by
    rfl
  exact closeApproach_time_str_roundtrip h

/-- C3 fails as stated: the constructor coerces whatever designation it
receives and never checks for emptiness, so constructing from an empty
designation string succeeds and stores the empty designation. -/
theorem designation_empty_counterexample :
    nearEarthObjectInit "" (PyStrInput.pstr "") "" "N" =
      Except.ok (NearEarthObject.mk "" none PFloat.nan false []) ∧
    (NearEarthObject.mk "" none PFloat.nan false []).designation = "" :=
  ⟨rfl, rfl⟩

/-- C3 amended: the designation is exactly the string passed to the
constructor — hence non-empty precisely when the input is — and no
subsequent operation changes it: the linking pass only ever appends to a
body's `approaches` (designation, name, diameter and hazard flag all
survive untouched) and serialization leaves both the event and the body
collection exactly as they were. -/
theorem designation_immutable :
    (∀ (pdes : String) (name : PyStrInput) (diameter pha : String)
       (n : NearEarthObject),
       nearEarthObjectInit pdes name diameter pha = Except.ok n →
       n.designation = pdes) ∧
    (∀ (neos : List NearEarthObject) (events : List CloseApproach)
       (i : Nat) (n2 : NearEarthObject),
       ((link neos events).1)[i]? = some n2 →
       ∃ n, neos[i]? = some n ∧ n2.designation = n.designation ∧
         n2.name = n.name ∧ n2.diameter = n.diameter ∧
         n2.hazardous = n.hazardous) ∧
    (∀ (ca : CloseApproach) (neos : List NearEarthObject) (extension : String),
       (serializeRun ca neos extension).2.1 = ca ∧
       (serializeRun ca neos extension).2.2 = neos) := by
  refine ⟨?_, ?_, ?_⟩
  · intro pdes name diameter pha n h
    unfold nearEarthObjectInit at h
    cases hp : pyFloatParse (if diameter = "" then "nan" else diameter) with
    | none => rw [hp] at h; exact absurd h (by simp)
    | some d =>
      rw [hp] at h
      injection h with h
      subst h
      rfl
  · intro neos events i n2 h
    rw [link_fst_getElem?] at h
    cases hn : neos[i]? with
    | none => rw [hn] at h; exact absurd h (by simp)
    | some n =>
      rw [hn] at h
      injection h with h
      subst h
      exact ⟨n, rfl, rfl, rfl, rfl, rfl⟩
  · intro ca neos extension
    exact ⟨rfl, rfl⟩

/-- Witness for the amended C3 at a concrete construction. -/
theorem designation_immutable_witness :
    (NearEarthObject.mk "433" (some "Eros") (PFloat.num 1684 100) false
      []).designation = "433" := by
  have h : nearEarthObjectInit "433" (PyStrInput.pstr "Eros") "16.84" "N" =
      Except.ok (NearEarthObject.mk "433" (some "Eros")
        (PFloat.num 1684 100) false []) := rfl
  exact designation_immutable.1 "433" (PyStrInput.pstr "Eros") "16.84" "N" _ h

/-- C6: an empty (or absent, which defaults to empty) diameter input
yields the not-a-number sentinel — construction succeeds, the stored
diameter fails Python's reflexive equality test and is not the float
zero (it is not a finite float at all) — while a non-empty diameter
input rejected by float conversion makes construction fail with the
conversion error. -/
theorem diameter_nan_spec (pdes : String) (name : PyStrInput) (pha : String) :
    (∀ (n : NearEarthObject),
       nearEarthObjectInit pdes name "" pha = Except.ok n →
       n.diameter = PFloat.nan ∧
       pfloatEqB n.diameter n.diameter = false ∧
       ∀ (a : ℤ) (b : ℕ), n.diameter ≠ PFloat.num a b) ∧
    (∃ n, nearEarthObjectInit pdes name "" pha = Except.ok n) ∧
    (∀ diameter, diameter ≠ "" → pyFloatParse diameter = none →
       nearEarthObjectInit pdes name diameter pha =
         Except.error "ValueError: could not convert string to float") := by
  have hnan : pyFloatParse "nan" = some PFloat.nan := rfl
  refine ⟨?_, ?_, ?_⟩
  · intro n h
    unfold nearEarthObjectInit at h
    rw [if_pos rfl, hnan] at h
    injection h with h
    subst h
    exact ⟨rfl, rfl, fun a b hc => PFloat.noConfusion hc⟩
  · refine ⟨NearEarthObject.mk pdes
        (if pyStrCoerce name = "" then none else some (pyStrCoerce name))
        PFloat.nan (decide ((if pha = "N" then "" else pha) ≠ "")) [], ?_⟩
    unfold nearEarthObjectInit
    rw [if_pos rfl, hnan]
  · intro diameter hne hp
    unfold nearEarthObjectInit
    rw [if_neg hne, hp]

/-- Witness for C6: scenario body `2015 AB` with empty diameter, and the
non-numeric diameter string `"abc"`. -/
theorem diameter_nan_spec_witness :
    (NearEarthObject.mk "2015 AB" none PFloat.nan true []).diameter =
      PFloat.nan ∧
    nearEarthObjectInit "2015 AB" (PyStrInput.pstr "") "abc" "Y" =
      Except.error "ValueError: could not convert string to float" := by
  have h := diameter_nan_spec "2015 AB" (PyStrInput.pstr "") "Y"
  refine ⟨?_, ?_⟩
  · have hok : nearEarthObjectInit "2015 AB" (PyStrInput.pstr "") "" "Y" =
        Except.ok (NearEarthObject.mk "2015 AB" none PFloat.nan true []) := rfl
    exact (h.1 _ hok).1
  · exact h.2.2 "abc" (by decide) (by decide)

/-- C7: the stored name is the `None` sentinel exactly when the name
input coerces to the empty string (the empty string is the default for
an absent name), and an empty string is never stored as the name. -/
theorem name_none_iff_empty {pdes : String} {name : PyStrInput}
    {diameter pha : String} {n : NearEarthObject}
    (h : nearEarthObjectInit pdes name diameter pha = Except.ok n) :
    (n.name = none ↔ pyStrCoerce name = "") ∧ n.name ≠ some "" := by
  unfold nearEarthObjectInit at h
  cases hp : pyFloatParse (if diameter = "" then "nan" else diameter) with
  | none => rw [hp] at h; exact absurd h (by simp)
  | some d =>
    rw [hp] at h
    injection h with h
    subst h
    by_cases hc : pyStrCoerce name = "" <;> simp [hc]

/-- Witness for C7: scenario body `2015 AB` with empty name input. -/
theorem name_none_iff_empty_witness :
    (NearEarthObject.mk "2015 AB" none PFloat.nan true []).name = none := by
  have h : nearEarthObjectInit "2015 AB" (PyStrInput.pstr "") "" "Y" =
      Except.ok (NearEarthObject.mk "2015 AB" none PFloat.nan true []) := rfl
  exact (name_none_iff_empty h).1.mpr rfl

/-- C8: the stored hazard flag is false exactly when the input is the
`'N'` sentinel or the empty (falsy) string, and true for any other
non-empty input value. -/
theorem hazardous_false_iff {pdes : String} {name : PyStrInput}
    {diameter pha : String} {n : NearEarthObject}
    (h : nearEarthObjectInit pdes name diameter pha = Except.ok n) :
    n.hazardous = false ↔ (pha = "N" ∨ pha = "") := by
  unfold nearEarthObjectInit at h
  cases hp : pyFloatParse (if diameter = "" then "nan" else diameter) with
  | none => rw [hp] at h; exact absurd h (by simp)
  | some d =>
    rw [hp] at h
    injection h with h
    subst h
    by_cases hN : pha = "N"
    · simp [hN]
    · by_cases hE : pha = "" <;> simp [hN, hE]

/-- Witness for C8: scenario body `433` with the `'N'` flag. -/
theorem hazardous_false_iff_witness :
    (NearEarthObject.mk "433" (some "Eros") (PFloat.num 1684 100) false
      []).hazardous = false := by
  have h : nearEarthObjectInit "433" (PyStrInput.pstr "Eros") "16.84" "N" =
      Except.ok (NearEarthObject.mk "433" (some "Eros")
        (PFloat.num 1684 100) false []) := rfl
  exact (hazardous_false_iff h).mpr (Or.inl rfl)

/-- C10: a name input that is Python's `None` coerces to the non-empty
string `"None"`, which is then stored as the name instead of the
null sentinel: only inputs coercing to the empty string normalize to
`None`. -/
theorem name_of_pynone {pdes diameter pha : String} {n : NearEarthObject}
    (h : nearEarthObjectInit pdes PyStrInput.pynone diameter pha =
      Except.ok n) :
    n.name = some "None" := by
  unfold nearEarthObjectInit at h
  cases hp : pyFloatParse (if diameter = "" then "nan" else diameter) with
  | none => rw [hp] at h; exact absurd h (by simp)
  | some d =>
    rw [hp] at h
    injection h with h
    subst h
    rfl

/-- Witness for C10 at a concrete construction. -/
theorem name_of_pynone_witness :
    (NearEarthObject.mk "99942" (some "None") PFloat.nan true []).name =
      some "None" := by
  have h : nearEarthObjectInit "99942" PyStrInput.pynone "" "Y" =
      Except.ok (NearEarthObject.mk "99942" (some "None") PFloat.nan
        true []) := rfl
  exact name_of_pynone h

/-- C4: for a linked event, the `csv` shape is exactly the seven fixed
keys in their fixed order with every value a string (an absent name
rendered as the empty string), and the `json` shape keeps
`datetime_utc`, `distance_au`, `velocity_km_s` at top level with native
types (string, float, float) and nests the remaining four keys with
native-typed values under `neo`. -/
theorem serialize_shapes {ca : CloseApproach} {neos : List NearEarthObject}
    {i : Nat} {neo : NearEarthObject}
    (h1 : ca.neo = some i) (h2 : neos[i]? = some neo) :
    serialize ca neos "csv" = Except.ok
      [("datetime_utc", PyVal.atom (PyAtom.astr ca.time_str)),
       ("distance_au", PyVal.atom (PyAtom.astr (pyStrOfPFloat ca.distance))),
       ("velocity_km_s", PyVal.atom (PyAtom.astr (pyStrOfPFloat ca.velocity))),
       ("designation", PyVal.atom (PyAtom.astr neo.designation)),
       ("name", PyVal.atom (PyAtom.astr (neo.name.getD ""))),
       ("diameter_km", PyVal.atom (PyAtom.astr (pyStrOfPFloat neo.diameter))),
       ("potentially_hazardous",
         PyVal.atom (PyAtom.astr (pyStrOfBool neo.hazardous)))] ∧
    serialize ca neos "json" = Except.ok
      [("datetime_utc", PyVal.atom (PyAtom.astr ca.time_str)),
       ("distance_au", PyVal.atom (PyAtom.afloat ca.distance)),
       ("velocity_km_s", PyVal.atom (PyAtom.afloat ca.velocity)),
       ("neo", PyVal.vdict
         [("designation", PyAtom.astr neo.designation),
          ("name", PyAtom.astr (neo.name.getD "")),
          ("diameter_km", PyAtom.afloat neo.diameter),
          ("potentially_hazardous", PyAtom.abool neo.hazardous)])] := by
  have hb : ca.neo.bind (fun j => neos[j]?) = some neo := by
    rw [h1]
    exact h2
  refine ⟨?_, ?_⟩ <;>
    (unfold serialize; rw [hb]; dsimp only; cases hn : neo.name <;> rfl)

/-- Witness for C4 at a concrete linked event. -/
theorem serialize_shapes_witness :
    serialize
      (CloseApproach.mk "433" ⟨1900, 12, 27, 1, 30⟩ (PFloat.num 3 10)
        (PFloat.num 57 10) (some 0))
      [NearEarthObject.mk "433" (some "Eros") (PFloat.num 1684 100) false [0]]
      "csv" =
      Except.ok
        [("datetime_utc", PyVal.atom (PyAtom.astr "1900-12-27 01:30")),
         ("distance_au", PyVal.atom (PyAtom.astr "3/10")),
         ("velocity_km_s", PyVal.atom (PyAtom.astr "57/10")),
         ("designation", PyVal.atom (PyAtom.astr "433")),
         ("name", PyVal.atom (PyAtom.astr "Eros")),
         ("diameter_km", PyVal.atom (PyAtom.astr "1684/100")),
         ("potentially_hazardous", PyVal.atom (PyAtom.astr "False"))] :=
  (@serialize_shapes
    (CloseApproach.mk "433" ⟨1900, 12, 27, 1, 30⟩ (PFloat.num 3 10)
      (PFloat.num 57 10) (some 0))
    [NearEarthObject.mk "433" (some "Eros") (PFloat.num 1684 100) false [0]]
    0 (NearEarthObject.mk "433" (some "Eros") (PFloat.num 1684 100) false [0])
    rfl rfl).1.trans (by rfl)

/-- C5: for a linked event, `serialize` raises the `ValueError`-class
error exactly on shapes other than `csv` and `json`, and returns
normally on those two. -/
theorem serialize_valueerror_iff {ca : CloseApproach}
    {neos : List NearEarthObject} {i : Nat} {neo : NearEarthObject}
    (h1 : ca.neo = some i) (h2 : neos[i]? = some neo) (extension : String) :
    ((∃ msg, serialize ca neos extension = Except.error msg) ↔
      (extension ≠ "csv" ∧ extension ≠ "json")) ∧
    ((∃ out, serialize ca neos extension = Except.ok out) ↔
      (extension = "csv" ∨ extension = "json")) := by
  have hb : ca.neo.bind (fun j => neos[j]?) = some neo := by
    rw [h1]
    exact h2
  unfold serialize
  rw [hb]
  dsimp only
  by_cases hc : extension = "csv"
  · simp [hc]
  · by_cases hj : extension = "json"
    · simp [hc, hj]
    · simp [hc, hj]

/-- Witness for C5: an unrecognized shape errors, a recognized one
returns. -/
theorem serialize_valueerror_iff_witness :
    (∃ msg, serialize
      (CloseApproach.mk "433" ⟨1900, 12, 27, 1, 30⟩ (PFloat.num 3 10)
        (PFloat.num 57 10) (some 0))
      [NearEarthObject.mk "433" (some "Eros") (PFloat.num 1684 100) false [0]]
      "xml" = Except.error msg) ∧
    (∃ out, serialize
      (CloseApproach.mk "433" ⟨1900, 12, 27, 1, 30⟩ (PFloat.num 3 10)
        (PFloat.num 57 10) (some 0))
      [NearEarthObject.mk "433" (some "Eros") (PFloat.num 1684 100) false [0]]
      "json" = Except.ok out) := by
  have h := @serialize_valueerror_iff
    (CloseApproach.mk "433" ⟨1900, 12, 27, 1, 30⟩ (PFloat.num 3 10)
      (PFloat.num 57 10) (some 0))
    [NearEarthObject.mk "433" (some "Eros") (PFloat.num 1684 100) false [0]]
    0 (NearEarthObject.mk "433" (some "Eros") (PFloat.num 1684 100) false [0])
    rfl rfl
  exact ⟨(h "xml").1.mpr (by decide), (h "json").2.mpr (Or.inr rfl)⟩

/-- C9: serializing the same linked event twice in the same recognized
shape yields equal outputs, and a call leaves both the event and the
body collection exactly as they were (the method builds fresh dicts and
assigns nothing). -/
theorem serialize_idempotent_pure (ca : CloseApproach)
    (neos : List NearEarthObject) (extension : String) (i : Nat)
    (neo : NearEarthObject) (_h1 : ca.neo = some i)
    (_h2 : neos[i]? = some neo)
    (_hext : extension = "csv" ∨ extension = "json") :
    (serializeRun ca neos extension).2.1 = ca ∧
    (serializeRun ca neos extension).2.2 = neos ∧
    (serializeRun (serializeRun ca neos extension).2.1
        (serializeRun ca neos extension).2.2 extension).1 =
      (serializeRun ca neos extension).1 :=
  ⟨rfl, rfl, rfl⟩

/-- Witness for C9 at a concrete linked event and the `json` shape. -/
theorem serialize_idempotent_pure_witness :
    (serializeRun
      (CloseApproach.mk "433" ⟨1900, 12, 27, 1, 30⟩ (PFloat.num 3 10)
        (PFloat.num 57 10) (some 0))
      [NearEarthObject.mk "433" (some "Eros") (PFloat.num 1684 100) false [0]]
      "json").2.1 =
      CloseApproach.mk "433" ⟨1900, 12, 27, 1, 30⟩ (PFloat.num 3 10)
        (PFloat.num 57 10) (some 0) :=
  (serialize_idempotent_pure
    (CloseApproach.mk "433" ⟨1900, 12, 27, 1, 30⟩ (PFloat.num 3 10)
      (PFloat.num 57 10) (some 0))
    [NearEarthObject.mk "433" (some "Eros") (PFloat.num 1684 100) false [0]]
    "json" 0
    (NearEarthObject.mk "433" (some "Eros") (PFloat.num 1684 100) false [0])
    rfl rfl (Or.inr rfl)).1

/-- Concrete body collection for exercising the linking pass. -/
def witnessNeos : List NearEarthObject :=
  [NearEarthObject.mk "433" (some "Eros") (PFloat.num 1684 100) false [],
   NearEarthObject.mk "2015 AB" none PFloat.nan true []]

/-- Concrete event collection for exercising the linking pass: events 0
and 2 reference body `433`, event 1 references an unknown designation. -/
def witnessEvents : List CloseApproach :=
  [CloseApproach.mk "433" ⟨1900, 12, 27, 1, 30⟩ (PFloat.num 3 10)
     (PFloat.num 57 10) none,
   CloseApproach.mk "unknown-object" ⟨2020, 1, 1, 0, 0⟩ (PFloat.num 1 1)
     (PFloat.num 2 1) none,
   CloseApproach.mk "433" ⟨2021, 6, 30, 23, 59⟩ (PFloat.num 5 100)
     (PFloat.num 9 1) none]

/-- Witness for C2 on the concrete collections. -/
theorem link_assign_neo_spec_witness :
    ((link witnessNeos witnessEvents).2 =
      witnessEvents.map
        (fun e => { e with neo := findNeoIdx witnessNeos e._designation })) ∧
    (∀ (j i : Nat) (e : CloseApproach) (n : NearEarthObject),
      witnessEvents[j]? = some e → witnessNeos[i]? = some n →
      n.designation = e._designation →
      ((link witnessNeos witnessEvents).2)[j]? = some { e with neo := some i } ∧
      ∃ n2, ((link witnessNeos witnessEvents).1)[i]? = some n2 ∧
        n2.approaches = hits witnessNeos i 0 witnessEvents ∧
        n2.approaches.count j = 1 ∧
        n2.designation = n.designation) ∧
    (∀ (j : Nat) (e : CloseApproach), witnessEvents[j]? = some e →
      findNeoIdx witnessNeos e._designation = none →
      ((link witnessNeos witnessEvents).2)[j]? = some { e with neo := none } ∧
      ∀ (i : Nat) (n2 : NearEarthObject),
        ((link witnessNeos witnessEvents).1)[i]? = some n2 →
          j ∉ n2.approaches) ∧
    (∀ (j i1 i2 : Nat) (n1 n2 : NearEarthObject),
      ((link witnessNeos witnessEvents).1)[i1]? = some n1 →
      ((link witnessNeos witnessEvents).1)[i2]? = some n2 →
      j ∈ n1.approaches → j ∈ n2.approaches → i1 = i2) :=
  link_assign_neo_spec witnessNeos witnessEvents (by decide) (by decide)
